import Mathlib

/-!
Verification development for the smac_planner core (SmacPlanner facade,
NodeSE2 / MotionTable) of the navigation2 repository.

The definitions below are a shallow embedding of the C++ sources
`smac_planner/src/smac_planner.cpp` and `smac_planner/src/node_se2.cpp`.
Machine floating point is modelled by real numbers; the costmap cost is a
natural number below 256; fallible operations return Option/Except.
-/

namespace SmacPlanner

/-! ## Cost sentinels and node validity (node_se2.cpp, NodeSE2::isNodeValid) -/

/-- Modelled from the spec: the OCCUPIED sentinel band of the 8-bit cell cost
(the numeric value is the costmap convention the spec refers to; the constants
header is not part of the sources). -/
def OCCUPIED : ℕ := 254

/-- Modelled from the spec: the INSCRIBED sentinel band of the 8-bit cell cost. -/
def INSCRIBED : ℕ := 253

/-- Modelled from the spec: the UNKNOWN sentinel band of the 8-bit cell cost. -/
def UNKNOWN : ℕ := 255

/-- Embedding of `NodeSE2::isNodeValid` (node_se2.cpp lines 182-206): first the
occupied/inscribed test, then the unknown test against `traverse_unknown`. -/
def isNodeValid (cost : ℕ) (traverse_unknown : Bool) : Bool :=
  if cost = OCCUPIED ∨ cost = INSCRIBED then false
  else if cost = UNKNOWN ∧ traverse_unknown = false then false
  else true

/-! ## Motion model selection (configure, initMotionModel) -/

/-- Motion model enumeration, as listed by the facade's warning message and the
spec's configuration section. -/
inductive MotionModel where
  | unknown
  | von_neumann
  | moore
  | dubin
  | reeds_shepp
  | balkcom_mason
deriving DecidableEq, Repr

/-- Modelled from the spec: `fromString` (the helper header is not part of the
sources) maps the five recognized configuration strings MOORE, VON_NEUMANN,
DUBIN, REEDS_SHEPP, BALKCOM_MASON to their models and anything else to UNKNOWN. -/
def fromString (s : String) : MotionModel :=
  if s = "MOORE" then MotionModel.moore
  else if s = "VON_NEUMANN" then MotionModel.von_neumann
  else if s = "DUBIN" then MotionModel.dubin
  else if s = "REEDS_SHEPP" then MotionModel.reeds_shepp
  else if s = "BALKCOM_MASON" then MotionModel.balkcom_mason
  else MotionModel.unknown

/-- Outcome of one validation step inside `SmacPlanner::configure`: a fatal
check terminates the process, a warn check only logs and continues. -/
inductive ConfigCheck where
  | fatal
  | warn
  | ok
deriving DecidableEq, Repr

/-- Embedding of the motion-model validation in `SmacPlanner::configure`
(smac_planner.cpp lines 155-161): an unrecognized model produces RCLCPP_WARN
and configuration continues. -/
def motionModelCheck (s : String) : ConfigCheck :=
  if fromString s = MotionModel.unknown then ConfigCheck.warn else ConfigCheck.ok

/-- Embedding of the travel-cost-scale validation in `SmacPlanner::configure`
(smac_planner.cpp lines 175-178): out of [0, 1] is RCLCPP_FATAL plus exit. -/
noncomputable def travelCostScaleCheck (c : ℝ) : ConfigCheck :=
  if 1 < c ∨ c < 0 then ConfigCheck.fatal else ConfigCheck.ok

/-! ## configure: iteration limits (smac_planner.cpp lines 102-110, 163-193) -/

/-- Largest value of a 32-bit signed int, `std::numeric_limits<int>::max()`. -/
def intMax : ℤ := 2 ^ 31 - 1

/-- The parameters read by `SmacPlanner::configure` (smac_planner.cpp lines
112-154) that are relevant here; there is no field for on-approach iterations
because configure declares and reads no such parameter. -/
structure ConfigParams where
  tolerance : ℝ
  downsample_costmap : Bool
  downsampling_factor : ℤ
  angle_quantization_bins : ℤ
  allow_unknown : Bool
  max_iterations : ℤ
  travel_cost_scale : ℝ
  smooth_path : Bool
  upsample_path : Bool
  minimum_turning_radius : ℝ
  motion_model_for_search : String

/-- Embedding of the `max_on_approach_iterations` computation in
`SmacPlanner::configure`: initialized to `std::numeric_limits<int>::max()`
(line 104), re-set to the same value by the `<= 0` guard (lines 163-167),
and never read from any parameter. -/
def configuredMaxOnApproachIterations (_p : ConfigParams) : ℤ :=
  if intMax ≤ 0 then intMax else intMax

/-- Embedding of the `max_iterations` computation in `SmacPlanner::configure`
(lines 169-173): a value `<= 0` disables the limit by substituting int max. -/
def configuredMaxIterations (p : ConfigParams) : ℤ :=
  if p.max_iterations ≤ 0 then intMax else p.max_iterations

/-! ## Goal orientation bin (createPlan, smac_planner.cpp lines 286-295) -/

/-- Embedding of the orientation bin the facade passes to `setGoal`
(smac_planner.cpp lines 293-295): the code recomputes
`orientation = tf2::getYaw(start.pose.orientation)` and divides by the angle
bin size; the cast to unsigned is truncation, i.e. the floor for the
non-negative yaws considered here. -/
noncomputable def setGoalOrientationBin (startYaw _goalYaw angleBinSize : ℝ) : ℤ :=
  ⌊startYaw / angleBinSize⌋

/-- The orientation bin the claim (and spec section 9) prescribe for `setGoal`:
the goal pose's yaw divided by the angle bin size. -/
noncomputable def specGoalOrientationBin (_startYaw goalYaw angleBinSize : ℝ) : ℤ :=
  ⌊goalYaw / angleBinSize⌋

/-- Embedding of the orientation bin the facade passes to `setStart`
(smac_planner.cpp lines 288-290). -/
noncomputable def setStartOrientationBin (startYaw angleBinSize : ℝ) : ℤ :=
  ⌊startYaw / angleBinSize⌋

/-! ## Motion table (node_se2.cpp lines 33-140) -/

/-- A motion primitive: the pose delta (dx, dy, dtheta) in continuous map
coordinates, as stored in `MotionTable::projections`. -/
structure MotionPose where
  dx : ℝ
  dy : ℝ
  dtheta : ℝ

/-- Planar magnitude of a primitive's translation component. -/
noncomputable def MotionPose.planarMagnitude (p : MotionPose) : ℝ :=
  Real.sqrt (p.dx ^ 2 + p.dy ^ 2)

/-- The `MotionTable` data: grid width, angular quantization and the ordered
primitive list (node_se2.hpp fields mirrored by node_se2.cpp). -/
structure MotionTable where
  size_x : ℕ
  num_angle_quantization : ℕ
  projections : List MotionPose

/-- The raw minimum turning angle `2.0 * asin(sqrt_2 / (2 * min_turning_radius))`
of node_se2.cpp line 53 (and line 92). -/
noncomputable def dubinAngleRaw (min_turning_radius : ℝ) : ℝ :=
  2 * Real.arcsin (Real.sqrt 2 / (2 * min_turning_radius))

/-- The angular bin size `2π / num_angle_quantization` of node_se2.cpp
lines 56-57 (and 93-94). -/
noncomputable def dubinBinSize (num_angle_quantization : ℕ) : ℝ :=
  2 * Real.pi / (num_angle_quantization : ℝ)

/-- The turning angle selected by `MotionTable::initDubin` and
`MotionTable::initReedsShepp` (node_se2.cpp lines 53-63 and 92-100):
the raw minimum chord angle, rounded up to the quantized bin size. -/
noncomputable def dubinAngle (num_angle_quantization : ℕ) (min_turning_radius : ℝ) : ℝ :=
  if dubinAngleRaw min_turning_radius < dubinBinSize num_angle_quantization then
    dubinBinSize num_angle_quantization
  else if dubinBinSize num_angle_quantization < dubinAngleRaw min_turning_radius then
    dubinBinSize num_angle_quantization *
      (⌈dubinAngleRaw min_turning_radius / dubinBinSize num_angle_quantization⌉ : ℝ)
  else dubinAngleRaw min_turning_radius

/-- Embedding of `MotionTable::initDubin` (node_se2.cpp lines 33-78). -/
noncomputable def MotionTable.initDubin
    (size_x_in num_angle_quantization_in : ℕ) (min_turning_radius : ℝ) : MotionTable :=
  let angle := dubinAngle num_angle_quantization_in min_turning_radius
  let delta_x := min_turning_radius * Real.sin angle
  let delta_y := min_turning_radius * Real.cos angle - min_turning_radius
  { size_x := size_x_in
    num_angle_quantization := num_angle_quantization_in
    projections :=
      [⟨Real.sqrt 2, 0, 0⟩,          -- Forward
       ⟨delta_x, delta_y, angle⟩,    -- Left
       ⟨delta_x, -delta_y, -angle⟩]  -- Right
  }

/-- Embedding of `MotionTable::initReedsShepp` (node_se2.cpp lines 83-112). -/
noncomputable def MotionTable.initReedsShepp
    (size_x_in num_angle_quantization_in : ℕ) (min_turning_radius : ℝ) : MotionTable :=
  let angle := dubinAngle num_angle_quantization_in min_turning_radius
  let delta_x := min_turning_radius * Real.sin angle
  let delta_y := min_turning_radius * Real.cos angle - min_turning_radius
  { size_x := size_x_in
    num_angle_quantization := num_angle_quantization_in
    projections :=
      [⟨Real.sqrt 2, 0, 0⟩,           -- Forward
       ⟨delta_x, delta_y, angle⟩,     -- Forward + Left
       ⟨delta_x, -delta_y, -angle⟩,   -- Forward + Right
       ⟨-Real.sqrt 2, 0, 0⟩,          -- Backward
       ⟨-delta_x, delta_y, angle⟩,    -- Backward + Left
       ⟨-delta_x, -delta_y, -angle⟩]  -- Backward + Right
  }

/-- Embedding of `MotionTable::initBalkcomMason` (node_se2.cpp lines 118-140). -/
noncomputable def MotionTable.initBalkcomMason
    (size_x_in num_angle_quantization_in : ℕ) : MotionTable :=
  let delta_angle : ℝ := 2 * Real.pi / (num_angle_quantization_in : ℝ)
  { size_x := size_x_in
    num_angle_quantization := num_angle_quantization_in
    projections :=
      [⟨Real.sqrt 2, 0, 0⟩,                -- Forward
       ⟨-Real.sqrt 2, 0, 0⟩,               -- Backward
       ⟨0, 0, delta_angle⟩,                -- Spin left
       ⟨0, 0, -delta_angle⟩,               -- Spin right
       ⟨Real.sqrt 2, 0, delta_angle⟩,      -- Spin left + Forward
       ⟨-Real.sqrt 2, 0, delta_angle⟩,     -- Spin left + Backward
       ⟨Real.sqrt 2, 0, -delta_angle⟩,     -- Spin right + Forward
       ⟨-Real.sqrt 2, 0, -delta_angle⟩]    -- Spin right + Backward
  }

/-- Embedding of `NodeSE2::initMotionModel` (node_se2.cpp lines 217-240):
only the three SE(2) models build a table; anything else throws. -/
noncomputable def initMotionModel (motion_model : MotionModel)
    (size_x num_angle_quantization : ℕ) (min_turning_radius : ℝ) :
    Except String MotionTable :=
  match motion_model with
  | MotionModel.dubin =>
      Except.ok (MotionTable.initDubin size_x num_angle_quantization min_turning_radius)
  | MotionModel.reeds_shepp =>
      Except.ok (MotionTable.initReedsShepp size_x num_angle_quantization min_turning_radius)
  | MotionModel.balkcom_mason =>
      Except.ok (MotionTable.initBalkcomMason size_x num_angle_quantization)
  | _ =>
      Except.error "Invalid motion model for SE2 node. Please select between Dubin (Ackermann forward only), Reeds-Shepp (Ackermann forward and back), or Balkcom-Mason (Differential drive and omnidirectional) models."

/-! ## Facade path conversion and smoothing pipeline (smac_planner.cpp 262-441) -/

/-- Embedding of `SmacPlanner::getWorldCoords` (smac_planner.cpp lines 433-441):
cell-center convention. -/
noncomputable def getWorldCoords (origin_x origin_y resolution : ℝ) (mx my : ℝ) : ℝ × ℝ :=
  (origin_x + (mx + 0.5) * resolution, origin_y + (my + 0.5) * resolution)

/-- World coordinates of entry `i` of the index path (out-of-range access never
happens in the loop; the default keeps the function total). -/
noncomputable def worldAt (origin_x origin_y resolution : ℝ)
    (ipath : List (ℝ × ℝ)) (i : ℕ) : ℝ × ℝ :=
  getWorldCoords origin_x origin_y resolution
    (ipath.getD i (0, 0)).1 (ipath.getD i (0, 0)).2

/-- Embedding of the conversion loop of `SmacPlanner::createPlan`
(smac_planner.cpp lines 343-352): indices are visited from `i` down to 0; when
smoothing is on, indices that are not multiples of 4 are skipped. -/
noncomputable def convertLoop (smoothing : Bool) (origin_x origin_y resolution : ℝ)
    (ipath : List (ℝ × ℝ)) : ℕ → List (ℝ × ℝ)
  | 0 => [worldAt origin_x origin_y resolution ipath 0]
  | i + 1 =>
      (if smoothing = true ∧ (i + 1) % 4 ≠ 0 then []
       else [worldAt origin_x origin_y resolution ipath (i + 1)]) ++
      convertLoop smoothing origin_x origin_y resolution ipath i

/-- The world-coordinate path (`path_world` and the matching `plan.poses`)
built by the conversion loop from the A* index path. -/
noncomputable def toWorldPath (smoothing : Bool) (origin_x origin_y resolution : ℝ)
    (ipath : List (ℝ × ℝ)) : List (ℝ × ℝ) :=
  if ipath.isEmpty then []
  else convertLoop smoothing origin_x origin_y resolution ipath (ipath.length - 1)

/-- Modelled from the spec: squared Euclidean distance between two points, the
comparison used by `removeHook` (the utils header is not part of the sources). -/
noncomputable def squaredDistance (p q : ℝ × ℝ) : ℝ :=
  (p.1 - q.1) ^ 2 + (p.2 - q.2) ^ 2

/-- The midpoint of the third-to-last and the last point, the local variable
`interpolated_second_to_last_point` of `SmacPlanner::removeHook`. -/
noncomputable def interpolatedSecondToLast (path : List (ℝ × ℝ)) : ℝ × ℝ :=
  (((path.getD (path.length - 3) (0, 0)).1 +
      (path.getD (path.length - 1) (0, 0)).1) / 2,
   ((path.getD (path.length - 3) (0, 0)).2 +
      (path.getD (path.length - 1) (0, 0)).2) / 2)

/-- Embedding of `SmacPlanner::removeHook` (smac_planner.cpp lines 420-431):
if the second-to-last point is farther from the last point than the midpoint of
its neighbors is, it is replaced by that midpoint. The facade only calls this
on paths of at least 4 points; shorter paths are returned unchanged here to
keep the function total. -/
noncomputable def removeHook (path : List (ℝ × ℝ)) : List (ℝ × ℝ) :=
  if 3 ≤ path.length then
    if squaredDistance (path.getD (path.length - 2) (0, 0))
          (path.getD (path.length - 1) (0, 0)) >
        squaredDistance (interpolatedSecondToLast path)
          (path.getD (path.length - 1) (0, 0)) then
      path.set (path.length - 2) (interpolatedSecondToLast path)
    else path
  else path

/-- The external solver-backed operations `Smoother::smooth` and
`Upsampler::upsample` used by the facade, abstracted as functions that either
fail (`none`, leaving the input path unchanged) or return the optimized path. -/
structure PipelineFns where
  smooth : List (ℝ × ℝ) → Option (List (ℝ × ℝ))
  upsample : List (ℝ × ℝ) → Option (List (ℝ × ℝ))

/-- Which stages of the post-A* pipeline were invoked during one plan. -/
structure StageTrace where
  smoothCalled : Bool
  hookCalled : Bool
  upsampleCalled : Bool
deriving DecidableEq, Repr

/-- Embedding of the post-A* stages of `SmacPlanner::createPlan`
(smac_planner.cpp lines 359-417): no smoother configured returns the raw plan;
a world path shorter than 4 points is returned as-is; otherwise smooth, remove
the hook, and optionally upsample, falling back to the last successful stage's
path on solver failure. -/
noncomputable def createPlanPost (smoothing upsampling : Bool) (fns : PipelineFns)
    (path_world : List (ℝ × ℝ)) : List (ℝ × ℝ) × StageTrace :=
  if smoothing = false then (path_world, ⟨false, false, false⟩)
  else if path_world.length < 4 then (path_world, ⟨false, false, false⟩)
  else
    match fns.smooth path_world with
    | none => (path_world, ⟨true, false, false⟩)
    | some smoothed =>
        let hooked := removeHook smoothed
        if upsampling = true then
          match fns.upsample hooked with
          | none => (hooked, ⟨true, true, true⟩)
          | some upsampled => (upsampled, ⟨true, true, true⟩)
        else (hooked, ⟨true, true, false⟩)

/-- Outcome of `AStarAlgorithm::createPath` as observed by the facade: success
with an index path and iteration count, failure (returned false) with the
iteration count, or a thrown `std::runtime_error`. -/
inductive AStarOutcome where
  | success : List (ℝ × ℝ) → ℤ → AStarOutcome
  | failure : ℤ → AStarOutcome
  | thrown : String → AStarOutcome

/-- Embedding of the failure-reason selection of `SmacPlanner::createPlan`
(smac_planner.cpp lines 317-321). -/
def planErrorString (num_iterations max_iterations : ℤ) : String :=
  if num_iterations < max_iterations then "no valid path found"
  else "exceeded maximum iterations"

/-- Embedding of `SmacPlanner::createPlan` after `setGoal` (smac_planner.cpp
lines 309-417), as a function of the A* outcome: on failure or exception the
plan is empty and a warning reason is produced; on success the index path is
converted to world coordinates and run through the smoothing pipeline. -/
noncomputable def createPlanModel (smoothing upsampling : Bool)
    (origin_x origin_y resolution : ℝ) (max_iterations : ℤ) (fns : PipelineFns)
    (outcome : AStarOutcome) : List (ℝ × ℝ) × Option String :=
  match outcome with
  | AStarOutcome.thrown msg => ([], some ("invalid use: " ++ msg))
  | AStarOutcome.failure num_iterations =>
      ([], some (planErrorString num_iterations max_iterations))
  | AStarOutcome.success ipath _ =>
      ((createPlanPost smoothing upsampling fns
          (toWorldPath smoothing origin_x origin_y resolution ipath)).1, none)

/-- The turning angle exactly as claim C4 words it: `bin` if `angle_raw < bin`
and `ceil(angle_raw / bin) * bin` otherwise, with
`angle_raw = 2 * asin(sqrt(2) / (2 * r_min))` and `bin = 2 * pi / n_angles`.
This is the refinement-side definition, to be compared with `dubinAngle`. -/
noncomputable def specDubinAngle (n_angles : ℕ) (r_min : ℝ) : ℝ :=
  if 2 * Real.arcsin (Real.sqrt 2 / (2 * r_min)) < 2 * Real.pi / (n_angles : ℝ) then
    2 * Real.pi / (n_angles : ℝ)
  else
    (⌈(2 * Real.arcsin (Real.sqrt 2 / (2 * r_min))) / (2 * Real.pi / (n_angles : ℝ))⌉ : ℝ) *
      (2 * Real.pi / (n_angles : ℝ))

/-- The ordered primitive list exactly as claim C4 words it:
(sqrt 2, 0, 0), (dx, dy, +angle), (dx, -dy, -angle) with
dx = r_min * sin(angle) and dy = r_min * cos(angle) - r_min. -/
noncomputable def specDubinPrimitives (n_angles : ℕ) (r_min : ℝ) : List MotionPose :=
  [⟨Real.sqrt 2, 0, 0⟩,
   ⟨r_min * Real.sin (specDubinAngle n_angles r_min),
     r_min * Real.cos (specDubinAngle n_angles r_min) - r_min,
     specDubinAngle n_angles r_min⟩,
   ⟨r_min * Real.sin (specDubinAngle n_angles r_min),
     -(r_min * Real.cos (specDubinAngle n_angles r_min) - r_min),
     -specDubinAngle n_angles r_min⟩]

/-! ## Theorems -/

/-- C5: for every node cost and every boolean `traverse_unknown`,
`isNodeValid` returns false iff the cost is OCCUPIED or INSCRIBED, or the cost
is UNKNOWN while `traverse_unknown` is false; every cost strictly below
INSCRIBED is valid. -/
theorem isNodeValid_characterization (cost : ℕ) (t : Bool) :
    (isNodeValid cost t = false ↔
      cost = OCCUPIED ∨ cost = INSCRIBED ∨ (cost = UNKNOWN ∧ t = false)) ∧
    (cost < INSCRIBED → isNodeValid cost t = true) := by
  constructor
  · unfold isNodeValid
    cases t <;> split_ifs with h1 h2 <;> (simp_all; try tauto)
  · intro h
    have h1 : ¬(cost = OCCUPIED ∨ cost = INSCRIBED) := by
      unfold OCCUPIED INSCRIBED at *; omega
    have h2 : ¬(cost = UNKNOWN ∧ t = false) := by
      unfold UNKNOWN at *; unfold INSCRIBED at h; intro hc; omega
    simp [isNodeValid, h1, h2]

/-- Witness for C5 at cost 100 (a traversable cost) and `traverse_unknown`
false. -/
theorem isNodeValid_characterization_witness :
    (isNodeValid 100 false = false ↔
      100 = OCCUPIED ∨ 100 = INSCRIBED ∨ (100 = UNKNOWN ∧ false = false)) ∧
    (100 < INSCRIBED → isNodeValid 100 false = true) :=
  isNodeValid_characterization 100 false

/-- C6: whenever the A* engine's createPath returns false without throwing,
`createPlan` returns an empty path, with reason "no valid path found" when the
iteration count is strictly below the maximum-iterations limit and
"exceeded maximum iterations" otherwise. -/
theorem createPlan_failure_reason (smoothing upsampling : Bool)
    (origin_x origin_y resolution : ℝ) (max_iterations : ℤ) (fns : PipelineFns)
    (num_iterations : ℤ) :
    createPlanModel smoothing upsampling origin_x origin_y resolution
        max_iterations fns (AStarOutcome.failure num_iterations) =
      ([], some (if num_iterations < max_iterations then "no valid path found"
                 else "exceeded maximum iterations")) := by
  simp only [createPlanModel, planErrorString]

/-- C10: `configure` always hands the A* engine
`max_on_approach_iterations = std::numeric_limits<int>::max()` — the value is
constant across all parameter sets (it is never read from a parameter) — and
since the configured global iteration limit never exceeds int max, an
on-approach counter (bounded by the total iteration count) can only reach int
max once the total count has already reached the global limit. -/
theorem maxOnApproachIterations_constant (p : ConfigParams) :
    configuredMaxOnApproachIterations p = intMax ∧
    (∀ q : ConfigParams,
      configuredMaxOnApproachIterations p = configuredMaxOnApproachIterations q) ∧
    (∀ onApproachCount totalIterations : ℤ,
      onApproachCount ≤ totalIterations →
      p.max_iterations ≤ intMax →
      intMax ≤ onApproachCount →
      configuredMaxIterations p ≤ totalIterations) := by
  refine ⟨by simp [configuredMaxOnApproachIterations], fun q => rfl, ?_⟩
  intro c i hci hmax hc
  unfold configuredMaxIterations
  split_ifs with h <;> omega

/-- Witness for C10 at the default parameter set and an on-approach counter
equal to int max. -/
theorem maxOnApproachIterations_constant_witness :
    ((intMax : ℤ) ≤ intMax ∧
      (⟨0.125, true, 1, 1, true, -1, 0.8, true, false, 1.0, "MOORE"⟩ :
        ConfigParams).max_iterations ≤ intMax ∧ (intMax : ℤ) ≤ intMax) ∧
    configuredMaxIterations
        ⟨0.125, true, 1, 1, true, -1, 0.8, true, false, 1.0, "MOORE"⟩ ≤ intMax :=
  ⟨⟨le_refl _, by norm_num [intMax], le_refl _⟩,
    (maxOnApproachIterations_constant
        ⟨0.125, true, 1, 1, true, -1, 0.8, true, false, 1.0, "MOORE"⟩).2.2
      intMax intMax (le_refl _) (by norm_num [intMax]) (le_refl _)⟩

/-- C2 (code bug): at start yaw 0, goal yaw pi/2 and angle bin size pi/2, the
facade passes orientation bin 0 (computed from the start pose's yaw, line 294
of smac_planner.cpp) to `setGoal`, while the claim and spec prescribe bin 1
(the goal pose's yaw divided by the bin size). -/
theorem setGoal_orientation_divergence :
    setGoalOrientationBin 0 (Real.pi / 2) (Real.pi / 2) = 0 ∧
    specGoalOrientationBin 0 (Real.pi / 2) (Real.pi / 2) = 1 ∧
    setGoalOrientationBin 0 (Real.pi / 2) (Real.pi / 2) ≠
      specGoalOrientationBin 0 (Real.pi / 2) (Real.pi / 2) := by
  have hgoal : specGoalOrientationBin 0 (Real.pi / 2) (Real.pi / 2) = 1 := by
    unfold specGoalOrientationBin
    rw [div_self (ne_of_gt (by positivity))]
    exact Int.floor_one
  have hstart : setGoalOrientationBin 0 (Real.pi / 2) (Real.pi / 2) = 0 := by
    unfold setGoalOrientationBin
    rw [zero_div]
    exact Int.floor_zero
  exact ⟨hstart, hgoal, by rw [hstart, hgoal]; decide⟩

/-- C7 counterexample: for the unrecognized motion model string "TURBO",
`configure`'s validation yields only a warning, not the fatal outcome the
claim requires. -/
theorem motionModel_unrecognized_cex :
    motionModelCheck "TURBO" = ConfigCheck.warn ∧
    motionModelCheck "TURBO" ≠ ConfigCheck.fatal := by
  constructor <;> simp [motionModelCheck, fromString]

/-- C7 amended: on an unrecognized motion model string, `configure` logs a
warning and proceeds (it does not terminate), and the invalid model is only
rejected later, when `NodeSE2::initMotionModel` is invoked with it and
throws a runtime error. -/
theorem motionModel_unrecognized_behavior (s : String) (size_x n : ℕ) (r : ℝ)
    (h : fromString s = MotionModel.unknown) :
    motionModelCheck s = ConfigCheck.warn ∧
    motionModelCheck s ≠ ConfigCheck.fatal ∧
    ∃ msg, initMotionModel (fromString s) size_x n r = Except.error msg := by
  refine ⟨by simp [motionModelCheck, h], by simp [motionModelCheck, h], ?_⟩
  rw [h]
  exact ⟨_, rfl⟩

/-- Witness for C7's amended theorem at the string "GARBAGE". -/
theorem motionModel_unrecognized_behavior_witness :
    fromString "GARBAGE" = MotionModel.unknown ∧
    (motionModelCheck "GARBAGE" = ConfigCheck.warn ∧
      motionModelCheck "GARBAGE" ≠ ConfigCheck.fatal ∧
      ∃ msg, initMotionModel (fromString "GARBAGE") 10 16 2 = Except.error msg) :=
  ⟨by simp [fromString],
    motionModel_unrecognized_behavior "GARBAGE" 10 16 2 (by simp [fromString])⟩

/-- C9: when smoothing is enabled and the downsampled world path has fewer
than 4 waypoints, the facade returns that path as-is and invokes neither the
smoother, nor hook removal, nor the upsampler. -/
theorem createPlan_short_path_early_return (upsampling : Bool)
    (origin_x origin_y resolution : ℝ) (ipath : List (ℝ × ℝ)) (fns : PipelineFns)
    (h : (toWorldPath true origin_x origin_y resolution ipath).length < 4) :
    createPlanPost true upsampling fns
        (toWorldPath true origin_x origin_y resolution ipath) =
      (toWorldPath true origin_x origin_y resolution ipath,
        ⟨false, false, false⟩) := by
  simp [createPlanPost, h]

/-- Witness for C9 at a one-cell index path, whose downsampled world path has
one waypoint. -/
theorem createPlan_short_path_early_return_witness :
    (toWorldPath true 0 0 1 [((0 : ℝ), (0 : ℝ))]).length < 4 ∧
    createPlanPost true false ⟨fun _ => none, fun _ => none⟩
        (toWorldPath true 0 0 1 [((0 : ℝ), (0 : ℝ))]) =
      (toWorldPath true 0 0 1 [((0 : ℝ), (0 : ℝ))], ⟨false, false, false⟩) :=
  ⟨by simp [toWorldPath, convertLoop],
    createPlan_short_path_early_return false 0 0 1 [((0 : ℝ), (0 : ℝ))]
      ⟨fun _ => none, fun _ => none⟩ (by simp [toWorldPath, convertLoop])⟩

/-- removeHook never changes the length of the path. -/
theorem removeHook_length (path : List (ℝ × ℝ)) :
    (removeHook path).length = path.length := by
  unfold removeHook
  split_ifs <;> simp

/-- removeHook never changes the first waypoint. -/
theorem removeHook_head? (path : List (ℝ × ℝ)) :
    (removeHook path).head? = path.head? := by
  unfold removeHook
  split_ifs with h1 h2
  · rw [List.head?_eq_getElem?, List.head?_eq_getElem?,
      List.getElem?_set_ne (show path.length - 2 ≠ 0 by omega)]
  · rfl
  · rfl

/-- removeHook never changes the last waypoint. -/
theorem removeHook_getLast? (path : List (ℝ × ℝ)) :
    (removeHook path).getLast? = path.getLast? := by
  unfold removeHook
  split_ifs with h1 h2
  · rw [List.getLast?_eq_getElem?, List.getLast?_eq_getElem?, List.length_set,
      List.getElem?_set_ne (show path.length - 2 ≠ path.length - 1 by omega)]
  · rfl
  · rfl

/-- C8: removeHook is idempotent on every path of at least three waypoints:
a single application replaces the second-to-last point with the midpoint of
its neighbors exactly when that midpoint is closer to the last point, after
which the condition no longer holds, so a second application is the
identity. -/
theorem removeHook_idempotent (path : List (ℝ × ℝ)) (h : 3 ≤ path.length) :
    removeHook (removeHook path) = removeHook path := by
  by_cases hcond :
      squaredDistance (path.getD (path.length - 2) (0, 0))
          (path.getD (path.length - 1) (0, 0)) >
        squaredDistance (interpolatedSecondToLast path)
          (path.getD (path.length - 1) (0, 0))
  · have hrw : removeHook path =
        path.set (path.length - 2) (interpolatedSecondToLast path) := by
      rw [removeHook, if_pos h, if_pos hcond]
    have hset2 : (path.set (path.length - 2)
          (interpolatedSecondToLast path)).getD (path.length - 2) (0, 0) =
        interpolatedSecondToLast path := by
      rw [List.getD_eq_getElem?_getD,
        List.getElem?_set_self (show path.length - 2 < path.length by omega)]
      rfl
    have hset1 : (path.set (path.length - 2)
          (interpolatedSecondToLast path)).getD (path.length - 1) (0, 0) =
        path.getD (path.length - 1) (0, 0) := by
      rw [List.getD_eq_getElem?_getD,
        List.getElem?_set_ne (show path.length - 2 ≠ path.length - 1 by omega),
        List.getD_eq_getElem?_getD]
    have hset3 : interpolatedSecondToLast (path.set (path.length - 2)
          (interpolatedSecondToLast path)) = interpolatedSecondToLast path := by
      unfold interpolatedSecondToLast
      simp only [List.length_set, List.getD_eq_getElem?_getD]
      rw [List.getElem?_set_ne (show path.length - 2 ≠ path.length - 3 by omega),
        List.getElem?_set_ne (show path.length - 2 ≠ path.length - 1 by omega)]
    rw [hrw, removeHook]
    simp only [List.length_set]
    rw [if_pos h, hset2, hset1, hset3, if_neg (lt_irrefl _)]
  · have hrw : removeHook path = path := by
      rw [removeHook, if_pos h, if_neg hcond]
    rw [hrw]
    exact hrw

/-- Witness for C8 at a concrete 4-point path with a hook. -/
theorem removeHook_idempotent_witness :
    3 ≤ ([((0 : ℝ), (0 : ℝ)), ((0 : ℝ), (0 : ℝ)), ((5 : ℝ), (0 : ℝ)),
        ((1 : ℝ), (0 : ℝ))] : List (ℝ × ℝ)).length ∧
    removeHook (removeHook [((0 : ℝ), (0 : ℝ)), ((0 : ℝ), (0 : ℝ)),
        ((5 : ℝ), (0 : ℝ)), ((1 : ℝ), (0 : ℝ))]) =
      removeHook [((0 : ℝ), (0 : ℝ)), ((0 : ℝ), (0 : ℝ)),
        ((5 : ℝ), (0 : ℝ)), ((1 : ℝ), (0 : ℝ))] :=
  ⟨by simp, removeHook_idempotent _ (by simp)⟩

/-- The conversion loop never produces an empty list. -/
theorem convertLoop_ne_nil (smoothing : Bool) (origin_x origin_y resolution : ℝ)
    (ipath : List (ℝ × ℝ)) : ∀ i, convertLoop smoothing origin_x origin_y resolution ipath i ≠ [] := by
  intro i
  induction i with
  | zero => simp [convertLoop]
  | succ i ih =>
      rw [convertLoop]
      intro hcon
      exact ih (List.append_eq_nil.mp hcon).2

/-- With smoothing on, the first element produced by the conversion loop from
index `i` is the entry at the largest multiple of 4 not exceeding `i`. -/
theorem convertLoop_true_head? (origin_x origin_y resolution : ℝ)
    (ipath : List (ℝ × ℝ)) :
    ∀ i, (convertLoop true origin_x origin_y resolution ipath i).head? =
      some (worldAt origin_x origin_y resolution ipath (4 * (i / 4))) := by
  intro i
  induction i with
  | zero => simp [convertLoop]
  | succ i ih =>
      rw [convertLoop]
      by_cases hm : (i + 1) % 4 = 0
      · have h4 : 4 * ((i + 1) / 4) = i + 1 := by omega
        simp [hm, h4]
      · have h4 : 4 * ((i + 1) / 4) = 4 * (i / 4) := by omega
        simp [hm, h4, ih]

/-- With smoothing off, the first element produced by the conversion loop from
index `i` is the entry at `i` itself. -/
theorem convertLoop_false_head? (origin_x origin_y resolution : ℝ)
    (ipath : List (ℝ × ℝ)) :
    ∀ i, (convertLoop false origin_x origin_y resolution ipath i).head? =
      some (worldAt origin_x origin_y resolution ipath i) := by
  intro i
  cases i with
  | zero => simp [convertLoop]
  | succ i => simp [convertLoop]

/-- The last element produced by the conversion loop is always the entry at
index 0 (index 0 is a multiple of 4, so it is never skipped). -/
theorem convertLoop_getLast? (smoothing : Bool) (origin_x origin_y resolution : ℝ)
    (ipath : List (ℝ × ℝ)) :
    ∀ i, (convertLoop smoothing origin_x origin_y resolution ipath i).getLast? =
      some (worldAt origin_x origin_y resolution ipath 0) := by
  intro i
  induction i with
  | zero => simp [convertLoop]
  | succ i ih =>
      rw [convertLoop, List.getLast?_append_of_ne_nil _
        (convertLoop_ne_nil smoothing origin_x origin_y resolution ipath i)]
      exact ih

/-- First waypoint of the world path, smoothing off: the last index-path
entry's cell center. -/
theorem toWorldPath_false_head? (origin_x origin_y resolution : ℝ)
    (ipath : List (ℝ × ℝ)) (h : ipath ≠ []) :
    (toWorldPath false origin_x origin_y resolution ipath).head? =
      some (worldAt origin_x origin_y resolution ipath (ipath.length - 1)) := by
  rw [toWorldPath, if_neg (by simpa using h)]
  exact convertLoop_false_head? origin_x origin_y resolution ipath (ipath.length - 1)

/-- First waypoint of the world path, smoothing on: the cell center of the
entry at the largest multiple of 4 not exceeding the last position. -/
theorem toWorldPath_true_head? (origin_x origin_y resolution : ℝ)
    (ipath : List (ℝ × ℝ)) (h : ipath ≠ []) :
    (toWorldPath true origin_x origin_y resolution ipath).head? =
      some (worldAt origin_x origin_y resolution ipath (4 * ((ipath.length - 1) / 4))) := by
  rw [toWorldPath, if_neg (by simpa using h)]
  exact convertLoop_true_head? origin_x origin_y resolution ipath (ipath.length - 1)

/-- Last waypoint of the world path: always the cell center of index-path
entry 0. -/
theorem toWorldPath_getLast? (smoothing : Bool) (origin_x origin_y resolution : ℝ)
    (ipath : List (ℝ × ℝ)) (h : ipath ≠ []) :
    (toWorldPath smoothing origin_x origin_y resolution ipath).getLast? =
      some (worldAt origin_x origin_y resolution ipath 0) := by
  rw [toWorldPath, if_neg (by simpa using h)]
  exact convertLoop_getLast? smoothing origin_x origin_y resolution ipath (ipath.length - 1)

/-- The post-A* pipeline preserves the first and last waypoint whenever the
abstract smoother and upsampler do (the spec fixes both endpoints in the
optimization problems). -/
theorem createPlanPost_endpoints (smoothing upsampling : Bool) (fns : PipelineFns)
    (pw : List (ℝ × ℝ))
    (hs : ∀ l m, fns.smooth l = some m → m.head? = l.head? ∧ m.getLast? = l.getLast?)
    (hu : ∀ l m, fns.upsample l = some m → m.head? = l.head? ∧ m.getLast? = l.getLast?) :
    (createPlanPost smoothing upsampling fns pw).1.head? = pw.head? ∧
    (createPlanPost smoothing upsampling fns pw).1.getLast? = pw.getLast? := by
  unfold createPlanPost
  by_cases h1 : smoothing = false
  · rw [if_pos h1]
    exact ⟨rfl, rfl⟩
  · rw [if_neg h1]
    by_cases h2 : pw.length < 4
    · rw [if_pos h2]
      exact ⟨rfl, rfl⟩
    · rw [if_neg h2]
      cases hsm : fns.smooth pw with
      | none => exact ⟨rfl, rfl⟩
      | some smoothed =>
          obtain ⟨hh, hl⟩ := hs pw smoothed hsm
          by_cases hup : upsampling = true
          · simp only [hup, if_true]
            cases hus : fns.upsample (removeHook smoothed) with
            | none =>
                simp [removeHook_head?, removeHook_getLast?, hh, hl]
            | some upsampled =>
                obtain ⟨hh2, hl2⟩ := hu _ _ hus
                simp [hh2, hl2, removeHook_head?, removeHook_getLast?, hh, hl]
          · simp only [hup, if_false, Bool.false_eq_true]
            simp [removeHook_head?, removeHook_getLast?, hh, hl]

/-- C1 counterexample: with smoothing enabled and a 6-entry index path ending
at cell (5, 5) (the start cell in the goal-to-start order A* produces), the
returned plan is non-empty but its first waypoint is the cell center of entry
4, not the start cell's center. -/
theorem createPlan_first_waypoint_cex :
    ((createPlanModel true false 0 0 1 100 ⟨fun _ => none, fun _ => none⟩
        (AStarOutcome.success
          [((0 : ℝ), (0 : ℝ)), (1, 1), (2, 2), (3, 3), (4, 4), (5, 5)] 0)).1 ≠ []) ∧
    ((createPlanModel true false 0 0 1 100 ⟨fun _ => none, fun _ => none⟩
        (AStarOutcome.success
          [((0 : ℝ), (0 : ℝ)), (1, 1), (2, 2), (3, 3), (4, 4), (5, 5)] 0)).1.head? ≠
      some (getWorldCoords 0 0 1 5 5)) := by
  have hpw : toWorldPath true 0 0 1
      [((0 : ℝ), (0 : ℝ)), (1, 1), (2, 2), (3, 3), (4, 4), (5, 5)] =
      [((4.5 : ℝ), (4.5 : ℝ)), ((0.5 : ℝ), (0.5 : ℝ))] := by
    norm_num [toWorldPath, convertLoop, worldAt, getWorldCoords]
  have hplan : (createPlanModel true false 0 0 1 100 ⟨fun _ => none, fun _ => none⟩
      (AStarOutcome.success
        [((0 : ℝ), (0 : ℝ)), (1, 1), (2, 2), (3, 3), (4, 4), (5, 5)] 0)).1 =
      [((4.5 : ℝ), (4.5 : ℝ)), ((0.5 : ℝ), (0.5 : ℝ))] := by
    rw [createPlanModel, hpw, createPlanPost]
    norm_num
  rw [hplan]
  constructor
  · simp
  · simp [getWorldCoords]
    norm_num

/-- C1 amended: in terms of the index path A* hands back (ordered goal first,
start last), the last waypoint of the returned plan is always the cell center
of entry 0, and the first waypoint is the cell center of the last entry when
smoothing is off, but of the entry at position 4 * floor((n - 1) / 4) when
smoothing is on — assuming the smoother and upsampler preserve both endpoints,
as their optimization problems fix them. -/
theorem createPlan_endpoint_waypoints (origin_x origin_y resolution : ℝ)
    (ipath : List (ℝ × ℝ)) (upsampling : Bool)
    (max_iterations num_iterations : ℤ) (fns : PipelineFns)
    (hne : ipath ≠ [])
    (hs : ∀ l m, fns.smooth l = some m → m.head? = l.head? ∧ m.getLast? = l.getLast?)
    (hu : ∀ l m, fns.upsample l = some m → m.head? = l.head? ∧ m.getLast? = l.getLast?) :
    ((createPlanModel false upsampling origin_x origin_y resolution max_iterations fns
        (AStarOutcome.success ipath num_iterations)).1.head? =
      some (worldAt origin_x origin_y resolution ipath (ipath.length - 1))) ∧
    ((createPlanModel false upsampling origin_x origin_y resolution max_iterations fns
        (AStarOutcome.success ipath num_iterations)).1.getLast? =
      some (worldAt origin_x origin_y resolution ipath 0)) ∧
    ((createPlanModel true upsampling origin_x origin_y resolution max_iterations fns
        (AStarOutcome.success ipath num_iterations)).1.head? =
      some (worldAt origin_x origin_y resolution ipath (4 * ((ipath.length - 1) / 4)))) ∧
    ((createPlanModel true upsampling origin_x origin_y resolution max_iterations fns
        (AStarOutcome.success ipath num_iterations)).1.getLast? =
      some (worldAt origin_x origin_y resolution ipath 0)) := by
  have hoff := createPlanPost_endpoints false upsampling fns
    (toWorldPath false origin_x origin_y resolution ipath) hs hu
  have hon := createPlanPost_endpoints true upsampling fns
    (toWorldPath true origin_x origin_y resolution ipath) hs hu
  refine ⟨?_, ?_, ?_, ?_⟩ <;> simp only [createPlanModel]
  · rw [hoff.1, toWorldPath_false_head? origin_x origin_y resolution ipath hne]
  · rw [hoff.2, toWorldPath_getLast? false origin_x origin_y resolution ipath hne]
  · rw [hon.1, toWorldPath_true_head? origin_x origin_y resolution ipath hne]
  · rw [hon.2, toWorldPath_getLast? true origin_x origin_y resolution ipath hne]

/-- Witness for C1's amended theorem at a one-entry index path and
always-failing solvers. -/
theorem createPlan_endpoint_waypoints_witness :
    (([((0 : ℝ), (0 : ℝ))] : List (ℝ × ℝ)) ≠ []) ∧
    (((createPlanModel false false 0 0 1 100 ⟨fun _ => none, fun _ => none⟩
        (AStarOutcome.success [((0 : ℝ), (0 : ℝ))] 0)).1.head? =
      some (worldAt 0 0 1 [((0 : ℝ), (0 : ℝ))]
        (([((0 : ℝ), (0 : ℝ))] : List (ℝ × ℝ)).length - 1))) ∧
    ((createPlanModel false false 0 0 1 100 ⟨fun _ => none, fun _ => none⟩
        (AStarOutcome.success [((0 : ℝ), (0 : ℝ))] 0)).1.getLast? =
      some (worldAt 0 0 1 [((0 : ℝ), (0 : ℝ))] 0)) ∧
    ((createPlanModel true false 0 0 1 100 ⟨fun _ => none, fun _ => none⟩
        (AStarOutcome.success [((0 : ℝ), (0 : ℝ))] 0)).1.head? =
      some (worldAt 0 0 1 [((0 : ℝ), (0 : ℝ))]
        (4 * ((([((0 : ℝ), (0 : ℝ))] : List (ℝ × ℝ)).length - 1) / 4)))) ∧
    ((createPlanModel true false 0 0 1 100 ⟨fun _ => none, fun _ => none⟩
        (AStarOutcome.success [((0 : ℝ), (0 : ℝ))] 0)).1.getLast? =
      some (worldAt 0 0 1 [((0 : ℝ), (0 : ℝ))] 0))) :=
  ⟨by simp,
    createPlan_endpoint_waypoints 0 0 1 [((0 : ℝ), (0 : ℝ))] false 100 0
      ⟨fun _ => none, fun _ => none⟩ (by simp)
      (fun _ _ hm => nomatch hm) (fun _ _ hm => nomatch hm)⟩

/-- For an even quantization of at least two bins and a turning radius of at
least sqrt(2)/2, the bin-aligned turning angle lies between the raw minimum
chord angle and pi. -/
theorem dubinAngle_bounds (n : ℕ) (r : ℝ) (hn : 2 ≤ n) (hev : n % 2 = 0)
    (hr : Real.sqrt 2 / 2 ≤ r) :
    dubinAngleRaw r ≤ dubinAngle n r ∧ dubinAngle n r ≤ Real.pi := by
  have hnR : (2 : ℝ) ≤ (n : ℝ) := by exact_mod_cast hn
  have hnpos : (0 : ℝ) < (n : ℝ) := by linarith
  have hrpos : (0 : ℝ) < r := lt_of_lt_of_le (by positivity) hr
  have hx0 : 0 ≤ Real.sqrt 2 / (2 * r) := by positivity
  have hraw0 : 0 ≤ dubinAngleRaw r := by
    unfold dubinAngleRaw
    have := Real.arcsin_nonneg.mpr hx0
    linarith
  have hrawpi : dubinAngleRaw r ≤ Real.pi := by
    unfold dubinAngleRaw
    have := Real.arcsin_le_pi_div_two (Real.sqrt 2 / (2 * r))
    linarith
  have hbinpos : 0 < dubinBinSize n := by
    unfold dubinBinSize
    positivity
  have hbinpi : dubinBinSize n ≤ Real.pi := by
    unfold dubinBinSize
    rw [div_le_iff₀ hnpos]
    nlinarith [Real.pi_pos]
  unfold dubinAngle
  split_ifs with h1 h2
  · exact ⟨le_of_lt h1, hbinpi⟩
  · constructor
    · have hceil := Int.le_ceil (dubinAngleRaw r / dubinBinSize n)
      have hmul := mul_le_mul_of_nonneg_left hceil (le_of_lt hbinpos)
      calc dubinAngleRaw r
          = dubinBinSize n * (dubinAngleRaw r / dubinBinSize n) := by
            rw [mul_comm, div_mul_cancel₀ _ (ne_of_gt hbinpos)]
        _ ≤ dubinBinSize n * (⌈dubinAngleRaw r / dubinBinSize n⌉ : ℝ) := hmul
    · obtain ⟨m, hm⟩ : ∃ m, n = 2 * m := ⟨n / 2, by omega⟩
      have hm1 : 1 ≤ m := by omega
      have hmne : ((m : ℕ) : ℝ) ≠ 0 := by
        have : (1 : ℝ) ≤ (m : ℝ) := by exact_mod_cast hm1
        linarith
      have hmbin : (m : ℝ) * dubinBinSize n = Real.pi := by
        unfold dubinBinSize
        subst hm
        push_cast
        field_simp
        ring
      have hle : dubinAngleRaw r / dubinBinSize n ≤ (m : ℝ) := by
        rw [div_le_iff₀ hbinpos, hmbin]
        exact hrawpi
      have hceil_le : ⌈dubinAngleRaw r / dubinBinSize n⌉ ≤ (m : ℤ) :=
        Int.ceil_le.mpr (by exact_mod_cast hle)
      have hcast : (⌈dubinAngleRaw r / dubinBinSize n⌉ : ℝ) ≤ (m : ℝ) := by
        exact_mod_cast hceil_le
      calc dubinBinSize n * (⌈dubinAngleRaw r / dubinBinSize n⌉ : ℝ)
          ≤ dubinBinSize n * (m : ℝ) :=
            mul_le_mul_of_nonneg_left hcast (le_of_lt hbinpos)
        _ = Real.pi := by rw [mul_comm]; exact hmbin
  · exact ⟨le_refl _, hrawpi⟩

/-- Under the same hypotheses, the squared chord of each curved
Dubin/Reeds-Shepp primitive is at least 2. -/
theorem dubin_chord_sq (n : ℕ) (r : ℝ) (hn : 2 ≤ n) (hev : n % 2 = 0)
    (hr : Real.sqrt 2 / 2 ≤ r) :
    2 ≤ (r * Real.sin (dubinAngle n r)) ^ 2 +
        (r * Real.cos (dubinAngle n r) - r) ^ 2 := by
  obtain ⟨hlow, hhigh⟩ := dubinAngle_bounds n r hn hev hr
  have hrpos : (0 : ℝ) < r := lt_of_lt_of_le (by positivity) hr
  have hx0 : 0 ≤ Real.sqrt 2 / (2 * r) := by positivity
  have hx1 : Real.sqrt 2 / (2 * r) ≤ 1 := by
    rw [div_le_one (by positivity)]
    linarith
  have hraw0 : 0 ≤ dubinAngleRaw r := by
    unfold dubinAngleRaw
    have := Real.arcsin_nonneg.mpr hx0
    linarith
  have hcos_le : Real.cos (dubinAngle n r) ≤ Real.cos (dubinAngleRaw r) :=
    Real.cos_le_cos_of_nonneg_of_le_pi hraw0 hhigh hlow
  have hcos_raw : Real.cos (dubinAngleRaw r) =
      1 - 2 * (Real.sqrt 2 / (2 * r)) ^ 2 := by
    unfold dubinAngleRaw
    rw [Real.cos_two_mul, Real.cos_arcsin,
      Real.sq_sqrt (by nlinarith : (0 : ℝ) ≤ 1 - (Real.sqrt 2 / (2 * r)) ^ 2)]
    ring
  have hx2 : (Real.sqrt 2 / (2 * r)) ^ 2 = 1 / (2 * r ^ 2) := by
    rw [div_pow, Real.sq_sqrt (by norm_num : (0 : ℝ) ≤ 2)]
    field_simp
    ring
  have hexp : (r * Real.sin (dubinAngle n r)) ^ 2 +
      (r * Real.cos (dubinAngle n r) - r) ^ 2 =
      2 * r ^ 2 * (1 - Real.cos (dubinAngle n r)) := by
    have hpyth := Real.sin_sq_add_cos_sq (dubinAngle n r)
    linear_combination r ^ 2 * hpyth
  have hkey : 1 / r ^ 2 ≤ 1 - Real.cos (dubinAngle n r) := by
    have hru : 1 - Real.cos (dubinAngleRaw r) = 1 / r ^ 2 := by
      rw [hcos_raw, hx2]
      field_simp
    linarith
  have hfin : 2 * r ^ 2 * (1 / r ^ 2) ≤
      2 * r ^ 2 * (1 - Real.cos (dubinAngle n r)) :=
    mul_le_mul_of_nonneg_left hkey (by positivity)
  have hval : 2 * r ^ 2 * (1 / r ^ 2) = 2 := by
    field_simp
  rw [hexp]
  linarith

/-- A primitive whose squared translation is at least 2 has planar magnitude
at least sqrt 2. -/
theorem sqrt_two_le_of_chord (dx dy dtheta : ℝ) (h : 2 ≤ dx ^ 2 + dy ^ 2) :
    Real.sqrt 2 ≤ (MotionPose.mk dx dy dtheta).planarMagnitude :=
  Real.sqrt_le_sqrt h

/-- C3 amended: for `initDubin` and `initReedsShepp` with an even angular
quantization of at least 2 bins and minimum turning radius at least sqrt(2)/2,
every primitive's planar magnitude is at least sqrt 2; for `initBalkcomMason`,
every primitive whose translation is not (0, 0) has magnitude at least sqrt 2
and the (0, 0) primitives are exactly the pure rotations, with nonzero angular
component. -/
theorem motion_primitive_magnitude (s n : ℕ) (r : ℝ)
    (hn : 2 ≤ n) (hev : n % 2 = 0) (hr : Real.sqrt 2 / 2 ≤ r) :
    (∀ p ∈ (MotionTable.initDubin s n r).projections,
      Real.sqrt 2 ≤ p.planarMagnitude) ∧
    (∀ p ∈ (MotionTable.initReedsShepp s n r).projections,
      Real.sqrt 2 ≤ p.planarMagnitude) ∧
    (∀ p ∈ (MotionTable.initBalkcomMason s n).projections,
      (¬(p.dx = 0 ∧ p.dy = 0) → Real.sqrt 2 ≤ p.planarMagnitude) ∧
      ((p.dx = 0 ∧ p.dy = 0) → p.dtheta ≠ 0)) := by
  have hchord := dubin_chord_sq n r hn hev hr
  have hchord2 : 2 ≤ (r * Real.sin (dubinAngle n r)) ^ 2 +
      (-(r * Real.cos (dubinAngle n r) - r)) ^ 2 := by
    rw [neg_sq]
    exact hchord
  have hchord3 : 2 ≤ (-(r * Real.sin (dubinAngle n r))) ^ 2 +
      (r * Real.cos (dubinAngle n r) - r) ^ 2 := by
    rw [neg_sq]
    exact hchord
  have hchord4 : 2 ≤ (-(r * Real.sin (dubinAngle n r))) ^ 2 +
      (-(r * Real.cos (dubinAngle n r) - r)) ^ 2 := by
    rw [neg_sq, neg_sq]
    exact hchord
  have hstraight : 2 ≤ (Real.sqrt 2) ^ 2 + (0 : ℝ) ^ 2 := by
    rw [Real.sq_sqrt (by norm_num : (0 : ℝ) ≤ 2)]
    norm_num
  have hstraight' : 2 ≤ (-Real.sqrt 2) ^ 2 + (0 : ℝ) ^ 2 := by
    rw [neg_sq]
    exact hstraight
  have hs2ne : Real.sqrt 2 ≠ 0 := ne_of_gt (Real.sqrt_pos.mpr (by norm_num))
  have hdpos : 0 < 2 * Real.pi / (n : ℝ) := by
    have hnpos : (0 : ℝ) < (n : ℝ) := by
      have : (2 : ℝ) ≤ (n : ℝ) := by exact_mod_cast hn
      linarith
    positivity
  refine ⟨?_, ?_, ?_⟩
  · intro p hp
    simp only [MotionTable.initDubin, List.mem_cons, List.not_mem_nil, or_false] at hp
    rcases hp with rfl | rfl | rfl
    · exact sqrt_two_le_of_chord _ _ _ hstraight
    · exact sqrt_two_le_of_chord _ _ _ hchord
    · exact sqrt_two_le_of_chord _ _ _ hchord2
  · intro p hp
    simp only [MotionTable.initReedsShepp, List.mem_cons, List.not_mem_nil,
      or_false] at hp
    rcases hp with rfl | rfl | rfl | rfl | rfl | rfl
    · exact sqrt_two_le_of_chord _ _ _ hstraight
    · exact sqrt_two_le_of_chord _ _ _ hchord
    · exact sqrt_two_le_of_chord _ _ _ hchord2
    · exact sqrt_two_le_of_chord _ _ _ hstraight'
    · exact sqrt_two_le_of_chord _ _ _ hchord3
    · exact sqrt_two_le_of_chord _ _ _ hchord4
  · intro p hp
    simp only [MotionTable.initBalkcomMason, List.mem_cons, List.not_mem_nil,
      or_false] at hp
    rcases hp with rfl | rfl | rfl | rfl | rfl | rfl | rfl | rfl
    · exact ⟨fun _ => sqrt_two_le_of_chord _ _ _ hstraight,
        fun hcon => absurd hcon.1 hs2ne⟩
    · exact ⟨fun _ => sqrt_two_le_of_chord _ _ _ hstraight',
        fun hcon => absurd (neg_eq_zero.mp hcon.1) hs2ne⟩
    · exact ⟨fun hcon => absurd ⟨rfl, rfl⟩ hcon, fun _ => ne_of_gt hdpos⟩
    · exact ⟨fun hcon => absurd ⟨rfl, rfl⟩ hcon,
        fun _ => neg_ne_zero.mpr (ne_of_gt hdpos)⟩
    · exact ⟨fun _ => sqrt_two_le_of_chord _ _ _ hstraight,
        fun hcon => absurd hcon.1 hs2ne⟩
    · exact ⟨fun _ => sqrt_two_le_of_chord _ _ _ hstraight',
        fun hcon => absurd (neg_eq_zero.mp hcon.1) hs2ne⟩
    · exact ⟨fun _ => sqrt_two_le_of_chord _ _ _ hstraight,
        fun hcon => absurd hcon.1 hs2ne⟩
    · exact ⟨fun _ => sqrt_two_le_of_chord _ _ _ hstraight',
        fun hcon => absurd (neg_eq_zero.mp hcon.1) hs2ne⟩

/-- Witness for C3's amended theorem at 16 angle bins and turning radius 2. -/
theorem motion_primitive_magnitude_witness :
    (2 ≤ 16 ∧ 16 % 2 = 0 ∧ Real.sqrt 2 / 2 ≤ (2 : ℝ)) ∧
    ((∀ p ∈ (MotionTable.initDubin 10 16 2).projections,
        Real.sqrt 2 ≤ p.planarMagnitude) ∧
      (∀ p ∈ (MotionTable.initReedsShepp 10 16 2).projections,
        Real.sqrt 2 ≤ p.planarMagnitude) ∧
      (∀ p ∈ (MotionTable.initBalkcomMason 10 16).projections,
        (¬(p.dx = 0 ∧ p.dy = 0) → Real.sqrt 2 ≤ p.planarMagnitude) ∧
        ((p.dx = 0 ∧ p.dy = 0) → p.dtheta ≠ 0))) :=
  ⟨⟨by norm_num, by norm_num, by
      nlinarith [Real.sq_sqrt (by norm_num : (0 : ℝ) ≤ 2),
        Real.sqrt_nonneg 2]⟩,
    motion_primitive_magnitude 10 16 2 (by norm_num) (by norm_num)
      (by nlinarith [Real.sq_sqrt (by norm_num : (0 : ℝ) ≤ 2),
        Real.sqrt_nonneg 2])⟩

/-- C3 counterexample: with a single angle bin (the default configuration
value) and turning radius 5, `initDubin`'s second primitive degenerates to a
zero translation with angular component 2 pi — a (0, 0) primitive that is not
a Balkcom-Mason pure rotation, with planar magnitude 0 instead of at least
sqrt 2. -/
theorem initDubin_zero_translation_cex :
    (MotionTable.initDubin 10 1 5).projections.getD 1 ⟨1, 1, 1⟩ =
      MotionPose.mk 0 0 (2 * Real.pi) ∧
    (MotionPose.mk 0 0 (2 * Real.pi)).planarMagnitude < Real.sqrt 2 := by
  have hangle : dubinAngle 1 5 = 2 * Real.pi := by
    unfold dubinAngle
    rw [if_pos]
    · unfold dubinBinSize
      norm_num
    · unfold dubinAngleRaw dubinBinSize
      have h := Real.arcsin_le_pi_div_two (Real.sqrt 2 / (2 * 5))
      have hpi := Real.pi_pos
      push_cast
      rw [div_one]
      linarith
  constructor
  · have hproj : (MotionTable.initDubin 10 1 5).projections.getD 1 ⟨1, 1, 1⟩ =
        MotionPose.mk (5 * Real.sin (dubinAngle 1 5))
          (5 * Real.cos (dubinAngle 1 5) - 5) (dubinAngle 1 5) := rfl
    rw [hproj, hangle]
    simp [Real.sin_two_pi, Real.cos_two_pi, MotionPose.mk.injEq]
  · show Real.sqrt ((0 : ℝ) ^ 2 + (0 : ℝ) ^ 2) < Real.sqrt 2
    rw [show ((0 : ℝ) ^ 2 + (0 : ℝ) ^ 2) = 0 by norm_num, Real.sqrt_zero]
    exact Real.sqrt_pos.mpr (by norm_num)

/-- C4: for every grid width, every quantization of at least one bin and every
turning radius, `initDubin` produces exactly the ordered primitive list the
claim describes (with the claim's bin-aligned angle formula). -/
theorem initDubin_primitive_list (s n : ℕ) (r : ℝ) (hn : 1 ≤ n) :
    (MotionTable.initDubin s n r).projections = specDubinPrimitives n r := by
  have hnpos : (0 : ℝ) < (n : ℝ) := by
    have : (1 : ℝ) ≤ (n : ℝ) := by exact_mod_cast hn
    linarith
  have hbinpos : (0 : ℝ) < 2 * Real.pi / (n : ℝ) := by positivity
  have key : dubinAngle n r = specDubinAngle n r := by
    unfold dubinAngle specDubinAngle dubinAngleRaw dubinBinSize
    by_cases h1 : 2 * Real.arcsin (Real.sqrt 2 / (2 * r)) < 2 * Real.pi / (n : ℝ)
    · rw [if_pos h1, if_pos h1]
    · rw [if_neg h1, if_neg h1]
      by_cases h2 : 2 * Real.pi / (n : ℝ) < 2 * Real.arcsin (Real.sqrt 2 / (2 * r))
      · rw [if_pos h2, mul_comm]
      · rw [if_neg h2]
        have heq : 2 * Real.arcsin (Real.sqrt 2 / (2 * r)) =
            2 * Real.pi / (n : ℝ) :=
          le_antisymm (not_lt.mp h2) (not_lt.mp h1)
        rw [heq, div_self (ne_of_gt hbinpos), Int.ceil_one]
        norm_num
  simp [MotionTable.initDubin, specDubinPrimitives, key]

/-- Witness for C4 at 4 angle bins, turning radius 2, grid width 10. -/
theorem initDubin_primitive_list_witness :
    1 ≤ 4 ∧
    (MotionTable.initDubin 10 4 2).projections = specDubinPrimitives 4 2 :=
  ⟨by norm_num, initDubin_primitive_list 10 4 2 (by norm_num)⟩

end SmacPlanner
